import Mathlib

/-!
Verification of the MegaETH allocation-checker front end against its design
notes.  The definitions below are shallow embeddings of the JavaScript source:

* identity resolution, entity location, direct state read, off-chain fetch and
  reconciliation come from the `checkAllocations` function of the main app
  (src/unnamed/part_000);
* the chunked event-log scan comes from the event-scan variant of the app
  (src/src/App.jsx, second document);
* the relay comes from the Netlify function (src/netlify/functions/allocation.js).

External effects (RPC reads, ENS lookup, HTTP fetch) are modelled as inputs:
a `World` record supplies the outcome of each remote call, and the list of
network calls actually issued is returned alongside the final UI state.
JavaScript numbers are modelled exactly (`Nat` for integer amounts, `Rat` for
the scaled display amounts), so division by 1e6 is exact rather than floating.
-/

namespace AllocChecker

/-! ### Identity resolution (src/unnamed/part_000, lines 72-102) -/

/-- One character of the character class `[a-fA-F0-9]` in the validation
regex `/^0x[a-fA-F0-9]{40}$/`. -/
def isHexDigitChar (c : Char) : Bool :=
  (decide ('0' ≤ c) && decide (c ≤ '9')) ||
  (decide ('a' ≤ c) && decide (c ≤ 'f')) ||
  (decide ('A' ≤ c) && decide (c ≤ 'F'))

/-- `address.startsWith("0x")` — a case-sensitive check for a lowercase
`0x` at the start of the string. -/
def startsWith0x (s : String) : Bool :=
  match s.data with
  | '0' :: 'x' :: _ => true
  | _ => false

/-- `address.endsWith(".eth")`. -/
def endsWithDotEth (s : String) : Bool :=
  match s.data.reverse with
  | 'h' :: 't' :: 'e' :: '.' :: _ => true
  | _ => false

/-- `address.match(/^0x[a-fA-F0-9]{40}$/)`: a lowercase `0x` followed by
exactly 40 hexadecimal digits and nothing else. -/
def matchesAddressPattern (s : String) : Bool :=
  startsWith0x s && (s.data.drop 2).length == 40 && (s.data.drop 2).all isHexDigitChar

/-- Which branch the resolver takes for a given input, before any remote
outcome is known.  `ensLookup` is the branch that performs the network call
`client.getEnsAddress`; `literal a` is acceptance of the input with no
network call; `invalid` is the "Invalid Ethereum address format" rejection. -/
inductive ResolveOutcome
  | literal (addr : String)
  | ensLookup
  | invalid
deriving DecidableEq

/-- Branch selection of the resolver in `checkAllocations`
(src/unnamed/part_000, lines 75-102): the ENS path is taken when the input
does not start with `0x` or ends with `.eth`; otherwise the input is accepted
verbatim when it matches the address regex and rejected when it does not. -/
def resolveStep (address : String) : ResolveOutcome :=
  if !startsWith0x address || endsWithDotEth address then ResolveOutcome.ensLookup
  else if matchesAddressPattern address then ResolveOutcome.literal address
  else ResolveOutcome.invalid

/-- Outcome of the `client.getEnsAddress` call: the call can complete with an
optional bound address (`null` modelled as `none`), or reject with an error
message. -/
inductive EnsResp
  | ok (r : Option String)
  | err (msg : String)
deriving DecidableEq

/-- Result of the whole identity-resolution phase. -/
inductive ResolveResult
  | resolved (addr : String)
  | invalidFormat
  | nameNotFound
  | transportError (msg : String)
deriving DecidableEq

/-- Identity resolution including the ENS outcome (src/unnamed/part_000,
lines 72-102): on the ENS path a rejected call yields the transport error, a
completed call with no bound address yields "ENS name not found", and a bound
address is used as the resolved address; on the literal path the regex decides
between verbatim acceptance and the invalid-format error. -/
def resolveIdentity (address : String) (ens : EnsResp) : ResolveResult :=
  if !startsWith0x address || endsWithDotEth address then
    match ens with
    | EnsResp.err m => ResolveResult.transportError m
    | EnsResp.ok none => ResolveResult.nameNotFound
    | EnsResp.ok (some a) => ResolveResult.resolved a
  else if matchesAddressPattern address then ResolveResult.resolved address
  else ResolveResult.invalidFormat

/-! ### On-chain state, off-chain fetch and reconciliation
(src/unnamed/part_000, lines 104-184) -/

/-- The fields of the `entityStateByID` struct that `checkAllocations` reads.
`acceptedAmount` is the uint64 fixed-point USDT amount (6 decimals). -/
structure EntityState where
  acceptedAmount : Nat
  bidTimestamp : Nat
  refunded : Bool
  cancelled : Bool
deriving DecidableEq

/-- Parsed JSON body of a successful off-chain response.  All three fields
are optional numbers. -/
structure ApiAllocation where
  usdt_allocation : Option Rat
  token_allocation : Option Rat
  clearing_price : Option Rat
deriving DecidableEq

/-- Outcome of the off-chain fetch.  `success` is an ok HTTP status with a
body that parsed as JSON; `badStatus` is a non-ok HTTP status; `thrown`
covers a rejected `fetch` (transport failure) and a body that failed to parse
as JSON (`response.json()` throwing) — both land in the same `catch` block in
the source. -/
inductive ApiOutcome
  | success (d : ApiAllocation)
  | badStatus (code : Nat)
  | thrown (msg : String)
deriving DecidableEq

/-- True on every outcome of the off-chain fetch other than a parsed
successful response. -/
def ApiOutcome.isFailureOutcome : ApiOutcome → Bool
  | ApiOutcome.success _ => false
  | ApiOutcome.badStatus _ => true
  | ApiOutcome.thrown _ => true

/-- The `apiAllocation` / `apiError` pair produced by the inner try/catch of
the off-chain fetch (src/unnamed/part_000, lines 128-155): a parsed body with
no error, or a null body plus a captured error description. -/
def apiFetch : ApiOutcome → Option ApiAllocation × Option String
  | ApiOutcome.success d => (some d, none)
  | ApiOutcome.badStatus code => (none, some ("API returned status " ++ toString code))
  | ApiOutcome.thrown m => (none, some m)

/-- The JavaScript test `x && Number(x) > 0` applied to an optional numeric
field: an absent field and the (falsy) value 0 fail the first conjunct, and
any other value must additionally be positive. -/
def truthyPos : Option Rat → Bool
  | none => false
  | some q => !(decide (q = 0)) && decide (0 < q)

/-- `hasApiAllocation` (src/unnamed/part_000, lines 158-163): the off-chain
record is non-null and carries a positive `usdt_allocation` or a positive
`token_allocation`. -/
def hasApiAllocation : Option ApiAllocation → Bool
  | none => false
  | some d => truthyPos d.usdt_allocation || truthyPos d.token_allocation

/-- The object passed to `setResult` (src/unnamed/part_000, lines 166-183).
Fields set only in one of the two branches are optional. -/
structure ResolvedAllocation where
  found : Bool
  amount : Option Rat
  entityID : String
  refunded : Option Bool
  cancelled : Option Bool
  bidTimestamp : Option Nat
  apiAllocation : Option ApiAllocation
  apiError : Option String
  message : Option String
deriving DecidableEq

/-- Classification of the final result (src/unnamed/part_000, lines 157-184):
when the on-chain `acceptedAmount` is zero and the off-chain record carries no
positive allocation, the result is the not-found record; otherwise it is the
found record with the on-chain amount scaled by 1e6.  The off-chain pair is
attached unchanged in both branches. -/
def reconcile (entityID : String) (st : EntityState) (api : ApiOutcome) : ResolvedAllocation :=
  if st.acceptedAmount == 0 && !(hasApiAllocation (apiFetch api).1) then
    { found := false, amount := none, entityID := entityID,
      refunded := none, cancelled := none, bidTimestamp := none,
      apiAllocation := (apiFetch api).1, apiError := (apiFetch api).2,
      message := some "No allocation detected" }
  else
    { found := true, amount := some ((st.acceptedAmount : Rat) / 1000000),
      entityID := entityID,
      refunded := some st.refunded, cancelled := some st.cancelled,
      bidTimestamp := some st.bidTimestamp,
      apiAllocation := (apiFetch api).1, apiError := (apiFetch api).2,
      message := none }

/-! ### The full `checkAllocations` pipeline (src/unnamed/part_000) -/

/-- The four React state variables that `checkAllocations` writes
(the input field itself is never written by it). -/
structure UIState where
  loading : Bool
  result : Option ResolvedAllocation
  error : String
  progress : String
deriving DecidableEq

/-- One remote call issued during a run, with its argument. -/
inductive NetworkCall
  | ensResolve (name : String)
  | entityByAddress (addr : String)
  | entityStateByID (eid : String)
  | apiFetch (eid : String)
deriving DecidableEq

/-- Outcomes of the remote world for one run: the ENS outcome, the two
contract reads (which may reject, landing in the outer catch), and the
off-chain fetch outcome keyed by entity id. -/
structure World where
  ens : EnsResp
  entityByAddress : String → Except String String
  entityStateByID : String → Except String EntityState
  api : String → ApiOutcome

/-- Continuation of `checkAllocations` after an address has been resolved
(src/unnamed/part_000, lines 104-184): read the entity id, read the entity
state, run the off-chain fetch (whose failure is captured, never thrown) and
store the reconciled result.  A rejected contract read lands in the outer
catch, which stores `"Error: " ++ message`; the `finally` block clears
`loading` and `progress` on every path. -/
def runResolved (resolvedAddress : String) (w : World) (calls0 : List NetworkCall) :
    UIState × List NetworkCall :=
  let calls1 := calls0 ++ [NetworkCall.entityByAddress resolvedAddress]
  match w.entityByAddress resolvedAddress with
  | Except.error m =>
      ({ loading := false, result := none, error := "Error: " ++ m, progress := "" }, calls1)
  | Except.ok entityID =>
      let calls2 := calls1 ++ [NetworkCall.entityStateByID entityID]
      match w.entityStateByID entityID with
      | Except.error m =>
          ({ loading := false, result := none, error := "Error: " ++ m, progress := "" }, calls2)
      | Except.ok entityState =>
          let calls3 := calls2 ++ [NetworkCall.apiFetch entityID]
          ({ loading := false,
             result := some (reconcile entityID entityState (w.api entityID)),
             error := "", progress := "" }, calls3)

/-- `checkAllocations` (src/unnamed/part_000, lines 60-191) as a function of
the previous UI state and the remote world, returning the final UI state and
the list of network calls issued.  The empty input returns before the
loading/result/progress writes; every other path first clears those three
fields and sets `loading`, and the `finally` block restores
`loading = false`, `progress = ""` at the end. -/
def checkAllocations (address : String) (w : World) (s : UIState) :
    UIState × List NetworkCall :=
  if address.data.isEmpty then
    ({ s with error := "Please enter an address or ENS name" }, [])
  else if !startsWith0x address || endsWithDotEth address then
    match w.ens with
    | EnsResp.err m =>
        ({ loading := false, result := none,
           error := "Failed to resolve ENS name: " ++ m, progress := "" },
         [NetworkCall.ensResolve address])
    | EnsResp.ok none =>
        ({ loading := false, result := none,
           error := "ENS name not found or not resolved", progress := "" },
         [NetworkCall.ensResolve address])
    | EnsResp.ok (some a) => runResolved a w [NetworkCall.ensResolve address]
  else if matchesAddressPattern address then
    runResolved address w []
  else
    ({ loading := false, result := none,
       error := "Invalid Ethereum address format", progress := "" }, [])

/-! ### Chunked event-log scan (src/src/App.jsx, event-scan variant) -/

/-- `CHUNK_SIZE = 50000n`: the maximum block width of one `getLogs` query. -/
def CHUNK_SIZE : Nat := 50000

/-- `START_BLOCK = 21280000n`: the deployment start block. -/
def START_BLOCK : Nat := 21280000

/-- The sequence of `(fromBlock, toBlock)` ranges issued by the scan loop
(src/src/App.jsx, lines 326-353): starting at `fromBlock`, each iteration
queries up to `fromBlock + CHUNK_SIZE - 1` capped at the head block, then
advances by `CHUNK_SIZE` while `fromBlock ≤ head`.  The first argument is
fuel bounding the number of iterations; since every iteration advances the
cursor by at least one block, `head + 1 - start` blocks of fuel always
suffice. -/
def scanChunks : Nat → Nat → Nat → List (Nat × Nat)
  | 0, _, _ => []
  | fuel + 1, fromBlock, head =>
    if fromBlock ≤ head then
      (fromBlock, min (fromBlock + CHUNK_SIZE - 1) head) ::
        scanChunks fuel (fromBlock + CHUNK_SIZE) head
    else []

/-- The chunk ranges the loop issues for the closed block interval
`[startBlock, head]`. -/
def chunkRanges (startBlock head : Nat) : List (Nat × Nat) :=
  scanChunks (head + 1 - startBlock) startBlock head

/-- `tilesB s h ranges` holds when `ranges` exactly tiles the closed interval
`[s, h]` with consecutive, non-empty, in-order ranges: each range starts
where the previous one ended plus one, and the last one ends at `h`. -/
def tilesB : Nat → Nat → List (Nat × Nat) → Bool
  | s, h, [] => s == h + 1
  | s, h, (a, b) :: rest =>
      (a == s) && decide (a ≤ b) && decide (b ≤ h) && tilesB (b + 1) h rest

/-- One `AllocationSet` log entry as used by the scan: the indexed entity id
(a hex string), the amount, the block number and the transaction hash. -/
structure EventLog where
  entityID : String
  acceptedAmountUSDT : Nat
  blockNumber : Nat
  transactionHash : String
deriving DecidableEq

/-- ASCII lower-casing of one character, as `String.prototype.toLowerCase`
acts on the hex strings involved. -/
def lowerChar (c : Char) : Char :=
  if decide ('A' ≤ c) && decide (c ≤ 'Z') then Char.ofNat (c.toNat + 32) else c

/-- `toLowerCase` on a string. -/
def toLowerCase (s : String) : String := String.mk (s.data.map lowerChar)

/-- The filter predicate of the scan (src/src/App.jsx, line 357):
`log.args.entityID.toLowerCase() === entityID.toLowerCase()`. -/
def matchesEntity (entityID : String) (log : EventLog) : Bool :=
  toLowerCase log.entityID == toLowerCase entityID

/-- The object passed to `setResult` by the event-scan variant
(src/src/App.jsx, lines 360-379). -/
structure ScanResult where
  found : Bool
  amount : Option Rat
  transactionHash : Option String
  blockNumber : Option Nat
  totalAllocations : Option Nat
  entityID : String
  message : Option String
deriving DecidableEq

/-- Reconstruction from the accumulated logs (src/src/App.jsx, lines
355-379): filter to the target entity id (case-insensitively); no match is a
valid not-found result; otherwise the element at index `length - 1` — the
last accumulated match — supplies the amount (scaled by 1e6), transaction
hash and block number. -/
def eventScanResult (entityID : String) (allLogs : List EventLog) : ScanResult :=
  match (allLogs.filter (matchesEntity entityID)).getLast? with
  | none =>
      { found := false, amount := none, transactionHash := none,
        blockNumber := none, totalAllocations := none,
        entityID := entityID, message := some "No allocation detected" }
  | some latestAlloc =>
      { found := true,
        amount := some ((latestAlloc.acceptedAmountUSDT : Rat) / 1000000),
        transactionHash := some latestAlloc.transactionHash,
        blockNumber := some latestAlloc.blockNumber,
        totalAllocations := some (allLogs.filter (matchesEntity entityID)).length,
        entityID := entityID, message := none }

/-- Accumulation of the chunk queries in loop order (src/src/App.jsx, lines
326-353): each chunk either returns its logs, which are appended, or rejects,
which throws out of the loop so no later chunk runs and no accumulated log
survives. -/
def accumulateLogs : List (Except String (List EventLog)) → Except String (List EventLog)
  | [] => Except.ok []
  | c :: rest =>
    match c with
    | Except.error e => Except.error e
    | Except.ok logs =>
      match accumulateLogs rest with
      | Except.error e => Except.error e
      | Except.ok more => Except.ok (logs ++ more)

/-- The whole scan: accumulate all chunk outcomes, then reconstruct.  A
failed chunk makes the whole scan fail with the chain-read error. -/
def scanPipeline (entityID : String) (chunkOutcomes : List (Except String (List EventLog))) :
    Except String ScanResult :=
  match accumulateLogs chunkOutcomes with
  | Except.error e => Except.error e
  | Except.ok allLogs => Except.ok (eventScanResult entityID allLogs)

/-- True exactly when the scan failed with a chain-read error instead of
producing a result. -/
def isChainReadError : Except String ScanResult → Bool
  | Except.error _ => true
  | Except.ok _ => false

/-! ### The relay (src/netlify/functions/allocation.js) -/

/-- Outcome of the upstream fetch as the relay observes it: a response whose
body either re-serializes as JSON (`some body`) or fails `response.json()`
(`none`), or a rejected fetch. -/
inductive UpstreamOutcome
  | response (status : Nat) (jsonBody : Option String)
  | transportError
deriving DecidableEq

/-- The relay's reply: status, body, and whether the permissive
`Access-Control-Allow-Origin` header is attached. -/
structure RelayResponse where
  status : Nat
  body : String
  corsAllowAll : Bool
deriving DecidableEq

/-- `JSON.stringify({ error: msg })`. -/
def jsonErrorBody (msg : String) : String :=
  "\x7b\"error\":\"" ++ msg ++ "\"\x7d"

/-- The Netlify handler (src/netlify/functions/allocation.js): a missing or
empty `entityId` parameter is answered with 400; a rejected upstream fetch or
a body that fails to parse as JSON lands in the catch and is answered with
500; otherwise the parsed body is re-serialized and answered with status 200
and the permissive cross-origin header, whatever the upstream status was. -/
def relayHandler (entityId : Option String) (upstream : UpstreamOutcome) : RelayResponse :=
  match entityId with
  | none =>
      { status := 400, body := jsonErrorBody "entityId parameter is required",
        corsAllowAll := false }
  | some id =>
    if id.data.isEmpty then
      { status := 400, body := jsonErrorBody "entityId parameter is required",
        corsAllowAll := false }
    else
      match upstream with
      | UpstreamOutcome.transportError =>
          { status := 500, body := jsonErrorBody "Failed to fetch allocation data",
            corsAllowAll := false }
      | UpstreamOutcome.response _ none =>
          { status := 500, body := jsonErrorBody "Failed to fetch allocation data",
            corsAllowAll := false }
      | UpstreamOutcome.response _ (some body) =>
          { status := 200, body := body, corsAllowAll := true }

/-! ### Helper lemmas -/

/-- A string matching the address regex starts with the two characters `0x`. -/
theorem startsWith0x_of_matches (s : String) (h : matchesAddressPattern s = true) :
    startsWith0x s = true := by
  simp only [matchesAddressPattern, Bool.and_eq_true] at h
  exact h.1.1

/-- A string starting with `0x` has non-empty character data. -/
theorem not_isEmpty_of_startsWith0x (s : String) (h : startsWith0x s = true) :
    s.data.isEmpty = false := by
  unfold startsWith0x at h
  cases hd : s.data with
  | nil => rw [hd] at h; simp at h
  | cons c cs => simp

/-- In a list that is pairwise non-decreasing under `f`, the last element
bounds every element. -/
theorem pairwise_le_getLast {α : Type} (f : α → Nat) :
    ∀ (l : List α), List.Pairwise (fun a b => f a ≤ f b) l →
      ∀ e, l.getLast? = some e → ∀ x ∈ l, f x ≤ f e := by
  intro l
  induction l with
  | nil => intro _ e he; simp at he
  | cons a rest ih =>
    intro hp e he x hx
    have hcons := List.pairwise_cons.mp hp
    cases rest with
    | nil =>
      simp only [List.getLast?_singleton, Option.some.injEq] at he
      rcases List.mem_singleton.mp hx with hxa
      rw [hxa, he]
    | cons b rest2 =>
      have he2 : (b :: rest2).getLast? = some e := by
        rw [List.getLast?_cons_cons] at he; exact he
      have hemem : e ∈ b :: rest2 := by
        rcases List.mem_getLast?_eq_getLast (by rw [he2]; exact rfl) with ⟨hne, hx2⟩
        rw [hx2]; exact List.getLast_mem hne
      rcases List.mem_cons.mp hx with hxa | hxrest
      · rw [hxa]; exact hcons.1 e hemem
      · exact ih hcons.2 e he2 x hxrest

/-- Every path of `checkAllocations` through a valid literal address whose
contract reads succeed ends with the reconciled result stored, an empty error,
and exactly the three non-ENS network calls issued. -/
theorem checkAllocations_literal_ok (address : String) (w : World) (s : UIState)
    (hp : matchesAddressPattern address = true) (he : endsWithDotEth address = false)
    (eid : String) (hb : w.entityByAddress address = Except.ok eid)
    (st : EntityState) (hs : w.entityStateByID eid = Except.ok st) :
    checkAllocations address w s =
      ({ loading := false,
         result := some (reconcile eid st (w.api eid)),
         error := "", progress := "" },
       [NetworkCall.entityByAddress address, NetworkCall.entityStateByID eid,
        NetworkCall.apiFetch eid]) := by
  have hsw : startsWith0x address = true := startsWith0x_of_matches address hp
  have hne : address.data.isEmpty = false := not_isEmpty_of_startsWith0x address hsw
  unfold checkAllocations
  rw [hne]
  simp only [Bool.false_eq_true, if_false, hsw, he, Bool.not_true, Bool.or_self,
    if_false, hp, if_true]
  simp only [runResolved, hb, hs]
  rfl

/-- On every failing off-chain outcome the captured `apiError` is set and the
off-chain record is null. -/
theorem apiFetch_failure (api : ApiOutcome) (h : api.isFailureOutcome = true) :
    (apiFetch api).1 = none ∧ (apiFetch api).2.isSome = true := by
  cases api with
  | success d => simp [ApiOutcome.isFailureOutcome] at h
  | badStatus code => exact ⟨rfl, rfl⟩
  | thrown m => exact ⟨rfl, rfl⟩

/-! ### Claim theorems -/

/-- Claim C1: for every on-chain record and every off-chain response,
`reconcile` classifies the result as found exactly when the on-chain
`acceptedAmount` is positive or the off-chain record carries a positive
`usdt_allocation` or `token_allocation`; and whenever the result is found,
the reported on-chain amount is `acceptedAmount / 1000000`, independent of
the off-chain figures.  In particular `acceptedAmount = 0` with an off-chain
`usdt_allocation = 500` yields a found result with amount 0 (see the
witness). -/
theorem reconcile_classification (entityID : String) (st : EntityState) (api : ApiOutcome) :
    ((reconcile entityID st api).found = true ↔
      0 < st.acceptedAmount ∨ hasApiAllocation (apiFetch api).1 = true) ∧
    ((reconcile entityID st api).found = true →
      (reconcile entityID st api).amount = some ((st.acceptedAmount : Rat) / 1000000)) := by
  unfold reconcile
  by_cases h : (st.acceptedAmount == 0 && !hasApiAllocation (apiFetch api).1) = true
  · rw [if_pos h]
    simp only [Bool.and_eq_true, beq_iff_eq, Bool.not_eq_true'] at h
    simp [h.1, h.2]
  · rw [if_neg h]
    simp only [Bool.and_eq_true, beq_iff_eq, Bool.not_eq_true', not_and] at h
    constructor
    · simp only [true_iff]
      by_cases h0 : st.acceptedAmount = 0
      · exact Or.inr (by simpa [h0] using h)
      · exact Or.inl (Nat.pos_of_ne_zero h0)
    · intro _; rfl

/-- Witness for C1 at the scenario from the spec: `acceptedAmount = 0`
combined with an off-chain `usdt_allocation = 500` is classified as found
with a reported on-chain amount of 0. -/
theorem reconcile_classification_witness :
    (reconcile "0x00000000000000000000000000000000" ⟨0, 0, false, false⟩
        (ApiOutcome.success ⟨some 500, none, none⟩)).found = true ∧
    (reconcile "0x00000000000000000000000000000000" ⟨0, 0, false, false⟩
        (ApiOutcome.success ⟨some 500, none, none⟩)).amount = some 0 := by
  have h := reconcile_classification "0x00000000000000000000000000000000"
    ⟨0, 0, false, false⟩ (ApiOutcome.success ⟨some 500, none, none⟩)
  have hx : hasApiAllocation
      (apiFetch (ApiOutcome.success ⟨some 500, none, none⟩)).1 = true := by decide
  have hf := h.1.mpr (Or.inr hx)
  refine ⟨hf, ?_⟩
  have ha := h.2 hf
  simpa using ha

/-- Claim C2 counterexample: a literal 40-hex-digit address without the `0x`
prefix is sent down the ENS-lookup branch (a network call), not accepted
as-is; and a `0x`-prefixed literal is accepted verbatim with no case
normalization, so the upper-case and lower-case spellings of the same address
resolve to different canonical strings. -/
theorem resolver_requires_prefix_and_keeps_case :
    resolveStep "aaaaaaaaaaaaaaaaaaaaaaaaaaaaaaaaaaaaaaaa" = ResolveOutcome.ensLookup ∧
    resolveStep "0xAAAAAAAAAAAAAAAAAAAAAAAAAAAAAAAAAAAAAAAA" =
      ResolveOutcome.literal "0xAAAAAAAAAAAAAAAAAAAAAAAAAAAAAAAAAAAAAAAA" ∧
    resolveStep "0xaaaaaaaaaaaaaaaaaaaaaaaaaaaaaaaaaaaaaaaa" =
      ResolveOutcome.literal "0xaaaaaaaaaaaaaaaaaaaaaaaaaaaaaaaaaaaaaaaa" ∧
    ResolveOutcome.literal "0xAAAAAAAAAAAAAAAAAAAAAAAAAAAAAAAAAAAAAAAA" ≠
      ResolveOutcome.literal "0xaaaaaaaaaaaaaaaaaaaaaaaaaaaaaaaaaaaaaaaa" := by
  refine ⟨by decide, by decide, by decide, by decide⟩

/-- Claim C2 as amended: every input that is a lowercase-`0x`-prefixed literal
of exactly 40 hexadecimal digits and does not end in `.eth` is accepted
verbatim — same string in, same string out — without any network call. -/
theorem literal_accepted_verbatim (s : String)
    (h1 : matchesAddressPattern s = true) (h2 : endsWithDotEth s = false) :
    resolveStep s = ResolveOutcome.literal s := by
  have hs : startsWith0x s = true := startsWith0x_of_matches s h1
  unfold resolveStep
  rw [hs, h2]
  simp [h1]

/-- Witness for the amended C2 at a concrete mixed-case literal address. -/
theorem literal_accepted_verbatim_witness :
    resolveStep "0x1234567890abcdefABCDEF1234567890abcdefAB" =
      ResolveOutcome.literal "0x1234567890abcdefABCDEF1234567890abcdefAB" :=
  literal_accepted_verbatim "0x1234567890abcdefABCDEF1234567890abcdefAB"
    (by decide) (by decide)

/-- Claim C3: an input that is not a valid literal address, when name
resolution completes with no bound address, fails with the invalid-format
error (literal path) or the name-not-found error (name path); it is never
resolved to some default address. -/
theorem unresolvable_input_fails (s : String) (h : matchesAddressPattern s = false) :
    (resolveIdentity s (EnsResp.ok none) = ResolveResult.invalidFormat ∨
     resolveIdentity s (EnsResp.ok none) = ResolveResult.nameNotFound) ∧
    ∀ a, resolveIdentity s (EnsResp.ok none) ≠ ResolveResult.resolved a := by
  unfold resolveIdentity
  by_cases hc : (!startsWith0x s || endsWithDotEth s) = true
  · rw [if_pos hc]
    exact ⟨Or.inr rfl, fun a => by simp⟩
  · rw [if_neg hc, if_neg (by simp [h])]
    exact ⟨Or.inl rfl, fun a => by simp⟩

/-- Witness for C3 at the concrete unresolvable input `"hello"`. -/
theorem unresolvable_input_fails_witness :
    resolveIdentity "hello" (EnsResp.ok none) = ResolveResult.invalidFormat ∨
    resolveIdentity "hello" (EnsResp.ok none) = ResolveResult.nameNotFound :=
  (unresolvable_input_fails "hello" (by decide)).1

/-- Claim C9 counterexample: for a present `entityId` and an upstream reply
with status 404 and a JSON body, the relay answers with status 200 — it does
not pass the upstream status through. -/
theorem relay_rewrites_status :
    (relayHandler (some "0xdeadbeef") (UpstreamOutcome.response 404 (some "\x7b\x7d"))).status
      = 200 ∧
    (relayHandler (some "0xdeadbeef") (UpstreamOutcome.response 404 (some "\x7b\x7d"))).status
      ≠ 404 := by
  refine ⟨rfl, by decide⟩

/-- Claim C9 as amended: the relay answers 400 when `entityId` is missing or
empty, 500 when the upstream fetch rejects or its body fails to parse as
JSON, and otherwise answers with status 200 (whatever the upstream status
was), the upstream JSON body re-serialized, and the permissive cross-origin
header. -/
theorem relay_behavior (p : Option String) (up : UpstreamOutcome) :
    ((p = none ∨ p = some "") → (relayHandler p up).status = 400) ∧
    (∀ id, p = some id → id ≠ "" → up = UpstreamOutcome.transportError →
      (relayHandler p up).status = 500) ∧
    (∀ id st, p = some id → id ≠ "" → up = UpstreamOutcome.response st none →
      (relayHandler p up).status = 500) ∧
    (∀ id st b, p = some id → id ≠ "" → up = UpstreamOutcome.response st (some b) →
      relayHandler p up = { status := 200, body := b, corsAllowAll := true }) := by
  have hnonempty : ∀ t : String, t ≠ "" → t.data.isEmpty = false := by
    intro t ht
    cases t with
    | mk data =>
      cases data with
      | nil => exact absurd rfl ht
      | cons c cs => simp
  refine ⟨?_, ?_, ?_, ?_⟩
  · rintro (hn | he)
    · rw [hn]; rfl
    · rw [he]; rfl
  · intro id hid hne hup
    rw [hid, hup]
    simp [relayHandler, hnonempty id hne]
  · intro id st hid hne hup
    rw [hid, hup]
    simp [relayHandler, hnonempty id hne]
  · intro id st b hid hne hup
    rw [hid, hup]
    simp [relayHandler, hnonempty id hne]

/-- Witness for the amended C9: a present `entityId` with a JSON upstream
body of status 418 is answered with status 200, that body, and the
cross-origin header. -/
theorem relay_behavior_witness :
    relayHandler (some "0xabc") (UpstreamOutcome.response 418 (some "\x7b\x7d")) =
      { status := 200, body := "\x7b\x7d", corsAllowAll := true } :=
  (relay_behavior (some "0xabc") (UpstreamOutcome.response 418 (some "\x7b\x7d"))).2.2.2
    "0xabc" 418 "\x7b\x7d" rfl (by decide) rfl

/-- Claim C10: on the empty input, `checkAllocations` returns immediately
with the prompt message, issues no network call, and leaves the loading,
result and progress fields exactly as they were before the call. -/
theorem empty_input_early_return (w : World) (s : UIState) :
    (checkAllocations "" w s).1.error = "Please enter an address or ENS name" ∧
    (checkAllocations "" w s).1.loading = s.loading ∧
    (checkAllocations "" w s).1.result = s.result ∧
    (checkAllocations "" w s).1.progress = s.progress ∧
    (checkAllocations "" w s).2 = [] :=
  ⟨rfl, rfl, rfl, rfl, rfl⟩

/-- Claim C4: when the locator returns the all-zero entity id, resolution
continues — the state read and the off-chain fetch are still issued — and
with a zero on-chain amount (the contract state of an absent entity) and no
positive off-chain allocation, the final stored result is a not-found result
carrying the zero entity id, with no error raised. -/
theorem zero_entity_is_absent_not_error (address : String) (w : World) (s : UIState)
    (hp : matchesAddressPattern address = true) (he : endsWithDotEth address = false)
    (hb : w.entityByAddress address =
      Except.ok "0x00000000000000000000000000000000")
    (st : EntityState)
    (hs : w.entityStateByID "0x00000000000000000000000000000000" = Except.ok st)
    (ha : st.acceptedAmount = 0)
    (hn : hasApiAllocation
      (apiFetch (w.api "0x00000000000000000000000000000000")).1 = false) :
    (checkAllocations address w s).1.result =
      some (reconcile "0x00000000000000000000000000000000" st
        (w.api "0x00000000000000000000000000000000")) ∧
    (reconcile "0x00000000000000000000000000000000" st
      (w.api "0x00000000000000000000000000000000")).found = false ∧
    (reconcile "0x00000000000000000000000000000000" st
      (w.api "0x00000000000000000000000000000000")).entityID =
        "0x00000000000000000000000000000000" ∧
    (checkAllocations address w s).1.error = "" ∧
    (checkAllocations address w s).2 =
      [NetworkCall.entityByAddress address,
       NetworkCall.entityStateByID "0x00000000000000000000000000000000",
       NetworkCall.apiFetch "0x00000000000000000000000000000000"] := by
  have hmain := checkAllocations_literal_ok address w s hp he
    "0x00000000000000000000000000000000" hb st hs
  rw [hmain]
  refine ⟨rfl, ?_, ?_, rfl, rfl⟩
  · simp [reconcile, ha, hn]
  · unfold reconcile
    split
    · rfl
    · rfl

/-- Witness for C4: a concrete world in which the locator returns the
all-zero entity id, the state read returns a zeroed record and the off-chain
fetch returns an empty body: the run stores a not-found result and raises no
error. -/
theorem zero_entity_is_absent_not_error_witness :
    ((checkAllocations "0xaaaaaaaaaaaaaaaaaaaaaaaaaaaaaaaaaaaaaaaa"
        { ens := EnsResp.ok none,
          entityByAddress := fun _ => Except.ok "0x00000000000000000000000000000000",
          entityStateByID := fun _ => Except.ok ⟨0, 0, false, false⟩,
          api := fun _ => ApiOutcome.success ⟨none, none, none⟩ }
        ⟨false, none, "", ""⟩).1.error = "") ∧
    ((reconcile "0x00000000000000000000000000000000" ⟨0, 0, false, false⟩
        (ApiOutcome.success ⟨none, none, none⟩)).found = false) := by
  have h := zero_entity_is_absent_not_error
    "0xaaaaaaaaaaaaaaaaaaaaaaaaaaaaaaaaaaaaaaaa"
    { ens := EnsResp.ok none,
      entityByAddress := fun _ => Except.ok "0x00000000000000000000000000000000",
      entityStateByID := fun _ => Except.ok ⟨0, 0, false, false⟩,
      api := fun _ => ApiOutcome.success ⟨none, none, none⟩ }
    ⟨false, none, "", ""⟩ (by decide) (by decide) rfl
    ⟨0, 0, false, false⟩ rfl rfl (by decide)
  exact ⟨h.2.2.2.1, h.2.1⟩

/-- Claim C8: on every failing off-chain outcome — non-success HTTP status,
transport failure or malformed body — the overall resolution still stores a
result with no error raised, the stored result's found flag is decided purely
by the on-chain amount, its `apiError` is non-null and its off-chain record
is null. -/
theorem offchain_failure_isolated (address : String) (w : World) (s : UIState)
    (hp : matchesAddressPattern address = true) (he : endsWithDotEth address = false)
    (eid : String) (hb : w.entityByAddress address = Except.ok eid)
    (st : EntityState) (hs : w.entityStateByID eid = Except.ok st)
    (hf : (w.api eid).isFailureOutcome = true) :
    (checkAllocations address w s).1.result = some (reconcile eid st (w.api eid)) ∧
    (checkAllocations address w s).1.error = "" ∧
    (reconcile eid st (w.api eid)).found = decide (0 < st.acceptedAmount) ∧
    (reconcile eid st (w.api eid)).apiError.isSome = true ∧
    (reconcile eid st (w.api eid)).apiAllocation = none := by
  have hmain := checkAllocations_literal_ok address w s hp he eid hb st hs
  rw [hmain]
  obtain ⟨hn, hsome⟩ := apiFetch_failure (w.api eid) hf
  refine ⟨rfl, rfl, ?_, ?_, ?_⟩
  · unfold reconcile
    by_cases h0 : st.acceptedAmount = 0
    · rw [if_pos (by simp [h0, hn, hasApiAllocation])]
      simp [h0]
    · rw [if_neg (by simp [h0])]
      exact (decide_eq_true (Nat.pos_of_ne_zero h0)).symm
  · unfold reconcile
    split
    · exact hsome
    · exact hsome
  · unfold reconcile
    split
    · exact hn
    · exact hn

/-- Witness for C8: a concrete run in which the relay answers with status
500; the stored result is found from the positive on-chain amount alone and
carries the captured error. -/
theorem offchain_failure_isolated_witness :
    ((checkAllocations "0xbbbbbbbbbbbbbbbbbbbbbbbbbbbbbbbbbbbbbbbb"
        { ens := EnsResp.ok none,
          entityByAddress := fun _ => Except.ok "0xe1",
          entityStateByID := fun _ => Except.ok ⟨2500000, 0, false, false⟩,
          api := fun _ => ApiOutcome.badStatus 500 }
        ⟨false, none, "", ""⟩).1.error = "") ∧
    ((reconcile "0xe1" ⟨2500000, 0, false, false⟩ (ApiOutcome.badStatus 500)).found =
      decide (0 < (2500000 : Nat))) ∧
    ((reconcile "0xe1" ⟨2500000, 0, false, false⟩
        (ApiOutcome.badStatus 500)).apiError.isSome = true) := by
  have h := offchain_failure_isolated "0xbbbbbbbbbbbbbbbbbbbbbbbbbbbbbbbbbbbbbbbb"
    { ens := EnsResp.ok none,
      entityByAddress := fun _ => Except.ok "0xe1",
      entityStateByID := fun _ => Except.ok ⟨2500000, 0, false, false⟩,
      api := fun _ => ApiOutcome.badStatus 500 }
    ⟨false, none, "", ""⟩ (by decide) (by decide) "0xe1" rfl
    ⟨2500000, 0, false, false⟩ rfl (by decide)
  exact ⟨h.2.1, h.2.2.1, h.2.2.2.1⟩

/-- The scan loop body is skipped whenever the cursor is already past the
head block, whatever fuel remains. -/
theorem scanChunks_nil (fuel s h : Nat) (hgt : h < s) : scanChunks fuel s h = [] := by
  cases fuel with
  | zero => rfl
  | succ n => simp [scanChunks, Nat.not_le.mpr hgt]

/-- With enough fuel (one unit per block of the interval is more than
enough), the scan loop tiles the closed interval exactly and every issued
range is at most `CHUNK_SIZE` wide. -/
theorem scanChunks_spec : ∀ (fuel s h : Nat), s ≤ h → h + 1 - s ≤ fuel →
    tilesB s h (scanChunks fuel s h) = true ∧
    ∀ p ∈ scanChunks fuel s h, p.2 + 1 - p.1 ≤ CHUNK_SIZE := by
  intro fuel
  induction fuel with
  | zero => intro s h hsh hf; omega
  | succ n ih =>
    intro s h hsh hf
    have hC : CHUNK_SIZE = 50000 := rfl
    simp only [scanChunks, if_pos hsh]
    by_cases hc : s + CHUNK_SIZE - 1 < h
    · have hmin : min (s + CHUNK_SIZE - 1) h = s + CHUNK_SIZE - 1 :=
        min_eq_left (le_of_lt hc)
      rw [hmin]
      have hrec := ih (s + CHUNK_SIZE) h (by omega) (by omega)
      have hb1 : s + CHUNK_SIZE - 1 + 1 = s + CHUNK_SIZE := by omega
      constructor
      · simp [tilesB, hb1, hrec.1]
        omega
      · intro p hp
        rcases List.mem_cons.mp hp with hph | hpt
        · rw [hph]; simp; omega
        · exact hrec.2 p hpt
    · have hmin : min (s + CHUNK_SIZE - 1) h = h := min_eq_right (by omega)
      rw [hmin]
      rw [scanChunks_nil n (s + CHUNK_SIZE) h (by omega)]
      constructor
      · simp [tilesB, hsh]
      · intro p hp
        rcases List.mem_singleton.mp hp with hph
        rw [hph]; simp; omega

/-- Claim C5: for every start block `S` and head block `H` with `S ≤ H`, the
chunk ranges issued by the scan loop tile the closed interval `[S, H]` with
consecutive in-order ranges of width at most `CHUNK_SIZE = 50000`; and from
the deployment start block, a 120000-block range is split into exactly three
queries of widths 50000, 50000 and 20000. -/
theorem chunk_partition_bounded :
    (∀ S H : Nat, S ≤ H →
      tilesB S H (chunkRanges S H) = true ∧
      ∀ p ∈ chunkRanges S H, p.2 + 1 - p.1 ≤ CHUNK_SIZE) ∧
    chunkRanges 21280000 21399999 =
      [(21280000, 21329999), (21330000, 21379999), (21380000, 21399999)] ∧
    (chunkRanges 21280000 21399999).map (fun p => p.2 + 1 - p.1) =
      [50000, 50000, 20000] := by
  refine ⟨?_, by decide, by decide⟩
  intro S H hSH
  exact scanChunks_spec (H + 1 - S) S H hSH (Nat.le_refl _)

/-- Witness for C5 at a concrete interval. -/
theorem chunk_partition_bounded_witness :
    tilesB 100 500099 (chunkRanges 100 500099) = true :=
  (chunk_partition_bounded.1 100 500099 (by decide)).1

/-- Claim C6: after filtering the accumulated (block-ordered) event sequence
to the target entity id under the case-insensitive compare, the
reconstruction reflects the last matching event — its scaled amount and its
block number, which bounds the block number of every matching event; and
zero matches produce a valid not-found result, not an error. -/
theorem last_matching_event_wins (entityID : String) (logs : List EventLog)
    (hsorted : List.Pairwise (fun a b => a.blockNumber ≤ b.blockNumber) logs) :
    (logs.filter (matchesEntity entityID) = [] →
      (eventScanResult entityID logs).found = false) ∧
    (∀ e, (logs.filter (matchesEntity entityID)).getLast? = some e →
      (eventScanResult entityID logs).found = true ∧
      (eventScanResult entityID logs).amount =
        some ((e.acceptedAmountUSDT : Rat) / 1000000) ∧
      (eventScanResult entityID logs).blockNumber = some e.blockNumber ∧
      ∀ x ∈ logs.filter (matchesEntity entityID), x.blockNumber ≤ e.blockNumber) := by
  constructor
  · intro hnil
    unfold eventScanResult
    rw [hnil]
    rfl
  · intro e he
    unfold eventScanResult
    rw [he]
    refine ⟨rfl, rfl, rfl, ?_⟩
    have hps : List.Pairwise (fun a b : EventLog => a.blockNumber ≤ b.blockNumber)
        (logs.filter (matchesEntity entityID)) := hsorted.filter _
    exact pairwise_le_getLast EventLog.blockNumber _ hps e he

/-- Witness for C6: three block-ordered events, two of which match the target
entity id in different letter casings; the reconstruction is found and
reports the block number of the last (highest-block) match. -/
theorem last_matching_event_wins_witness :
    (eventScanResult "0xAB"
      [⟨"0xCD", 1, 21280001, "0xt0"⟩, ⟨"0xab", 100, 21280005, "0xt1"⟩,
       ⟨"0xAB", 2500000, 21290000, "0xt2"⟩]).found = true ∧
    (eventScanResult "0xAB"
      [⟨"0xCD", 1, 21280001, "0xt0"⟩, ⟨"0xab", 100, 21280005, "0xt1"⟩,
       ⟨"0xAB", 2500000, 21290000, "0xt2"⟩]).blockNumber = some 21290000 := by
  have h := (last_matching_event_wins "0xAB"
      [⟨"0xCD", 1, 21280001, "0xt0"⟩, ⟨"0xab", 100, 21280005, "0xt1"⟩,
       ⟨"0xAB", 2500000, 21290000, "0xt2"⟩] (by decide)).2
    ⟨"0xAB", 2500000, 21290000, "0xt2"⟩ (by decide)
  exact ⟨h.1, h.2.2.1⟩

/-- A failing chunk anywhere in the outcome list makes the accumulation fail. -/
theorem accumulateLogs_mem_error (e : String) :
    ∀ cs : List (Except String (List EventLog)), Except.error e ∈ cs →
      ∃ m, accumulateLogs cs = Except.error m := by
  intro cs
  induction cs with
  | nil => intro h; simp at h
  | cons c rest ih =>
    intro h
    cases c with
    | error e2 => exact ⟨e2, rfl⟩
    | ok logs =>
      have hr : Except.error e ∈ rest := by
        rcases List.mem_cons.mp h with hc | hr
        · exact absurd hc (by simp)
        · exact hr
      obtain ⟨m, hm⟩ := ih hr
      refine ⟨m, ?_⟩
      simp only [accumulateLogs, hm]

/-- Claim C7: if any chunk query of the event scan fails, the whole
reconstruction fails with the chain-read error — no partially accumulated
events reach the caller as a result. -/
theorem chunk_failure_aborts_scan (entityID : String)
    (cs : List (Except String (List EventLog))) (e : String)
    (hmem : Except.error e ∈ cs) :
    isChainReadError (scanPipeline entityID cs) = true := by
  obtain ⟨m, hm⟩ := accumulateLogs_mem_error e cs hmem
  simp [scanPipeline, hm, isChainReadError]

/-- Witness for C7: a first chunk that already accumulated a matching event
followed by a failing chunk still yields no result, only the error. -/
theorem chunk_failure_aborts_scan_witness :
    isChainReadError (scanPipeline "0xabc"
      [Except.ok [⟨"0xabc", 5, 21280001, "0xt"⟩], Except.error "rpc timeout"]) = true :=
  chunk_failure_aborts_scan "0xabc"
    [Except.ok [⟨"0xabc", 5, 21280001, "0xt"⟩], Except.error "rpc timeout"]
    "rpc timeout" (by simp)

end AllocChecker
